import Mathlib

/-!
Verification of the session-token and password-hashing core of
`blog_final_project.py`, together with the content state machine of
`PostPage.post`, `Signup.post` and `EditPage.post`.

Cryptographic digests (`hmac.new(...).hexdigest()`, `hashlib.sha256(...)
.hexdigest()`) are modelled as function parameters; the only fact the code
relies on is that a hex digest never contains the `"|"` delimiter, which
appears as an explicit hypothesis where needed.
-/

namespace MattsBlog

/-- The module-level signing secret (line 38 of the source). -/
def SECRET : String :=
  "LYtOJ9kweSza7sBszlB79z5WEELkEY8O3t6Ll5F4nmj7bWzNLR"

/-- Python `h.split("|")[0]`: the text of `h` before the first `"|"`
(the whole string when no `"|"` occurs). -/
def firstField (h : String) : String :=
  ⟨h.data.takeWhile (fun c => c != '|')⟩

/-- Source `hash_str(s)`: `hmac.new(SECRET, s).hexdigest()`, with the HMAC digest
supplied as the parameter `hmac`. -/
def hash_str (hmac : String → String → String) (s : String) : String :=
  hmac SECRET s

/-- Source `make_secure_val(s)`: `"%s|%s" % (s, hash_str(s))`. -/
def make_secure_val (hmac : String → String → String) (s : String) : String :=
  s ++ "|" ++ hash_str hmac s

/-- Source `check_secure_val(h)`: if `h` is non-empty, take `val = h.split("|")[0]`
and return `val` when `h == make_secure_val(val)`; otherwise `None`. -/
def check_secure_val (hmac : String → String → String) (h : String) :
    Option String :=
  if h = "" then none
  else
    let val := firstField h
    if h = make_secure_val hmac val then some val else none

/-- Characterises the strings `make_salt()` can return: 5 random characters
drawn from `string.letters` (ASCII letters). The random choice itself is not
modelled; every theorem quantifies over any salt with this shape. -/
def IsMakeSaltOutput (s : String) : Prop :=
  s.length = 5 ∧ ∀ c ∈ s.data, c.isAlpha

/-- Source `make_pw_hash(name, pw, salt=None)`: when `salt` is falsy (absent or
empty) use a freshly generated salt (passed here as `freshSalt`), then
return `"%s|%s" % (salt, sha256(name + pw + salt).hexdigest())` with the
SHA-256 hex digest supplied as the parameter `sha`. -/
def make_pw_hash (sha : String → String) (freshSalt : String)
    (name pw : String) (salt : Option String) : String :=
  let s := match salt with
    | none => freshSalt
    | some t => if t = "" then freshSalt else t
  s ++ "|" ++ sha (name ++ pw ++ s)

/-- Source `valid_pw(name, password, h)`: extract `salt = h.split("|")[0]` and
compare `h` with `make_pw_hash(name, password, salt)`. -/
def valid_pw (sha : String → String) (freshSalt : String)
    (name password h : String) : Bool :=
  h == make_pw_hash sha freshSalt name password (some (firstField h))

/-! ### Input validators

`valid_username`, `valid_password` and `valid_email` call `re.match` on
anchored patterns.  In Python, `$` matches at the end of the string or just
before a single trailing newline, and `.` and character classes never match
a newline; `pyDollarCore` strips that optional trailing newline. -/

/-- The characters a Python `^...$` pattern must cover: the whole string,
minus one trailing newline when present. -/
def pyDollarCore (s : String) : List Char :=
  if s.data.getLast? = some '\n' then s.data.dropLast else s.data

/-- Source `re.match(r"^[class]{lo,hi}$", s)` for a character class `p` that does
not match newline. -/
def matchesFull (p : Char → Bool) (lo hi : Nat) (s : String) : Bool :=
  let core := pyDollarCore s
  decide (lo ≤ core.length) && decide (core.length ≤ hi) && core.all p

/-- Source `valid_username`: `re.match(r"^[a-zA-Z0-9_-]{3,20}$", username)`. -/
def valid_username (s : String) : Bool :=
  matchesFull (fun c => c.isAlphanum || c == '_' || c == '-') 3 20 s

/-- Source `valid_password`: `re.match(r"^.{3,20}$", password)`. -/
def valid_password (s : String) : Bool :=
  matchesFull (fun c => c != '\n') 3 20 s

/-- Python `\S` (ASCII, Python 2 default): not space, tab, newline,
carriage return, vertical tab or form feed. -/
def isS (c : Char) : Bool :=
  !(c == ' ' || c == '\t' || c == '\n' || c == '\r'
    || c == '\x0b' || c == '\x0c')

/-- Matches `[\S]+.[\S]+` against all of `t` (any split works, as regex
backtracking would find one). -/
def emailTailMatch (t : List Char) : Bool :=
  (List.range t.length).any fun j =>
    decide (1 ≤ j) && (t.take j).all isS
      && (match t.get? j with | some c => c != '\n' | none => false)
      && decide (j + 2 ≤ t.length) && (t.drop (j + 1)).all isS

/-- Source `valid_email`: `re.match(r"^[\S]+@[\S]+.[\S]+$", email)` (the `.` is an
unescaped any-character). -/
def valid_email (s : String) : Bool :=
  let core := pyDollarCore s
  (List.range core.length).any fun i =>
    (match core.get? i with | some c => c == '@' | none => false)
      && decide (1 ≤ i) && (core.take i).all isS
      && emailTailMatch (core.drop (i + 1))

/-- Stand-in hex digest used only to instantiate witness theorems. -/
def constDigest (_s : String) : String := "0d1f"

/-- Stand-in keyed hex digest used only to instantiate witness theorems. -/
def constHmac (_key _msg : String) : String := "9a3c"

/-! ### Data model

Datastore entities, translated from the `db.Model` classes.  Entity keys
and the `auto_now_add`/`auto_now` timestamps are modelled by a single
strictly increasing per-store counter `clock`: an insert stamps the new
record's `id`, `created` and `last_modified` with the current clock and a
save (`put`) refreshes `last_modified` (the `auto_now = True` property),
each advancing the clock.  String-valued datastore keys and the numeric
`post_id` URL component are modelled as `Nat` (decimal key strings are in
bijection with the numbers they denote).  `creator`/`name` come from
cookies and may be Python `None`, hence `Option String`. -/

/-- Source `Likez(db.Model)`: one "like" record. -/
structure Likez where
  id : Nat
  does_like : Bool
  created : Nat
  last_modified : Nat
  creator : Option String
  name : Option String
  post_id : Nat
deriving DecidableEq

/-- Source `Comment(db.Model)`: one comment; `mod` is the edit-mode flag
(`required = False`, unset = `None`). -/
structure Comment where
  id : Nat
  content : String
  created : Nat
  last_modified : Nat
  creator : Option String
  name : Option String
  post_id : Nat
  mod : Option Bool
deriving DecidableEq

/-- Source `Post(db.Model)`: one blog post. -/
structure Post where
  id : Nat
  subject : String
  content : String
  created : Nat
  last_modified : Nat
  creator : Option String
  name : Option String
deriving DecidableEq

/-- The Google App Engine datastore contents seen by the handlers. -/
structure DataStore where
  posts : List Post
  comments : List Comment
  likez : List Likez
  clock : Nat
deriving DecidableEq

/-- Source `Likez(...).put()` on a fresh record: assign a key and the
`auto_now_add`/`auto_now` timestamps from the clock. -/
def likezInsert (st : DataStore) (creator name : Option String)
    (post_id : Nat) (does_like : Bool) : DataStore :=
  { st with
    likez := st.likez
      ++ [⟨st.clock, does_like, st.clock, st.clock, creator, name, post_id⟩]
    clock := st.clock + 1 }

/-- Source `db.delete(key)` for a `Likez` key: removes the record with that key
if present, otherwise does nothing. -/
def likezDelete (st : DataStore) (k : Nat) : DataStore :=
  { st with likez := st.likez.filter (fun l => l.id != k) }

/-- Source `db.GqlQuery("SELECT * FROM Likez ORDER BY created DESC")`.  The store
list is kept in ascending creation order (inserts stamp a strictly
increasing clock), so the descending query is its reverse; theorems whose
statement depends on the iteration order carry the ascending-`created`
invariant as a hypothesis. -/
def gqlLikezDesc (st : DataStore) : List Likez :=
  st.likez.reverse

/-- Source `db.get(key)` for a `Comment` key. -/
def commentGet (st : DataStore) (k : Nat) : Option Comment :=
  st.comments.find? (fun c => c.id == k)

/-- Source `comment.put()` on an existing record: store the modified record under
its key, refreshing `last_modified` (`auto_now = True`). -/
def commentPut (st : DataStore) (c : Comment) : DataStore :=
  { st with
    comments := st.comments.map
      (fun x => if x.id = c.id then { c with last_modified := st.clock }
                else x)
    clock := st.clock + 1 }

/-- Source `db.delete(key)` for a `Comment` key (no-op when absent). -/
def commentDelete (st : DataStore) (k : Nat) : DataStore :=
  { st with comments := st.comments.filter (fun c => c.id != k) }

/-- Source `Comment(...).put()` on a fresh record (`mod` unset). -/
def commentInsert (st : DataStore) (content : String)
    (name creator : Option String) (post_id : Nat) : DataStore :=
  { st with
    comments := st.comments
      ++ [⟨st.clock, content, st.clock, st.clock, creator, name, post_id,
           none⟩]
    clock := st.clock + 1 }

/-- Source `db.delete(key)` for a `Post` key (no-op when absent). -/
def postDelete (st : DataStore) (k : Nat) : DataStore :=
  { st with posts := st.posts.filter (fun p => p.id != k) }

/-- Source `db.get(db.Key.from_path("Post", post_id))`. -/
def postGet (st : DataStore) (k : Nat) : Option Post :=
  st.posts.find? (fun p => p.id == k)

/-- Source `post.content = text; post.put()`: store the updated content under the
post's key, refreshing `last_modified`.  (When the key does not resolve the
Python code would raise on `None.content`; the model leaves the store
unchanged, and theorems that need the entity assume it exists.) -/
def postPutContent (st : DataStore) (k : Nat) (content : String) :
    DataStore :=
  { st with
    posts := st.posts.map
      (fun p => if p.id = k then
          { p with content := content, last_modified := st.clock } else p)
    clock := st.clock + 1 }

/-! ### Cookies and identity -/

/-- The two cookies a request may carry (`None` = absent). -/
structure Cookies where
  user : Option String
  user_id : Option String

/-- Source `Handler.read_secure_cookie(name)`:
`cookie_val and check_secure_val(cookie_val)`. -/
def read_secure_cookie (hmac : String → String → String)
    (cookie_val : Option String) : Option String :=
  match cookie_val with
  | none => none
  | some v => check_secure_val hmac v

/-- Source `Handler.identify()`: the verified `user` cookie's text before the
first `"|"`, else `None`. -/
def identify (hmac : String → String → String) (ck : Cookies) :
    Option String :=
  match read_secure_cookie hmac ck.user with
  | some r => some (firstField r)
  | none => none

/-! ### `PostPage.post` -/

/-- The form fields `PostPage.post` reads.  `self.request.get(f)` returns
`""` for an absent field; for the fields that carry an entity key the
(non-empty) key string is modelled as `some key`. -/
structure Req where
  like1 : Bool
  unlike : Bool
  edit_c : Option Nat
  update_c : Option Nat
  updated_comment : String
  cancel_u_c : Option Nat
  delete_c : Option Nat
  delete_p : Option Nat
  edit_p : Option Nat
  comment : String
deriving DecidableEq

/-- The four redirects `PostPage.post` can issue. -/
inductive Redirect where
  | blog
  | editPage (post_id : Nat)
  | login
  | postPage (post_id : Nat)
deriving DecidableEq

/-- Result of a handler `post` method: the datastore afterwards and the
redirect issued. -/
structure PostResult where
  st : DataStore
  redirect : Redirect
deriving DecidableEq

/-- Source `PostPage.post(post_id)` after the identity block: lines 481-560 of
the source, with `uname`, `current_user` and `current_name` already
computed.  Statements execute top to bottom on the shared datastore;
`have_error`, `delete_post` and `edit_post` are the three local flags.
(`db.get` on a key that does not resolve returns `None` and the Python
code would then raise on attribute access in the `edit_c`/`update_c`/
`cancel_u_c` blocks; the model leaves the store unchanged there, and
theorems about those blocks assume the entity exists.) -/
def postPageCore (uname current_user current_name : Option String)
    (post_id : Nat) (req : Req) (st : DataStore) : PostResult :=
  let comment := req.comment
  let have_error := req.like1 && uname.isNone
  let st1 := if req.like1 && uname.isSome
    then likezInsert st current_user current_name post_id true else st
  let st2 := if req.unlike then
      let likez := gqlLikezDesc st1
      let delkey := likez.foldl
        (fun acc likey =>
          if likey.creator == current_user && likey.does_like
          then some likey.id else acc) none
      match delkey with
      | some k => likezDelete st1 k
      | none => st1
    else st1
  let st3 := match req.edit_c with
    | some ckey =>
      match commentGet st2 ckey with
      | some e => commentPut st2 { e with mod := some true }
      | none => st2
    | none => st2
  let st4 := match req.update_c with
    | some ukey =>
      match commentGet st3 ukey with
      | some u => commentPut st3
          { u with content := req.updated_comment, mod := some false }
      | none => st3
    | none => st3
  let st5 := match req.cancel_u_c with
    | some cankey =>
      match commentGet st4 cankey with
      | some can => commentPut st4 { can with mod := some false }
      | none => st4
    | none => st4
  let st6 := match req.delete_c with
    | some dd_key => commentDelete st5 dd_key
    | none => st5
  let st7 := match req.delete_p with
    | some dpk => postDelete st6 dpk
    | none => st6
  let delete_post := req.delete_p.isSome
  let edit_post := req.edit_p.isSome
  let st8 := if comment != "" && uname.isSome
    then commentInsert st7 comment current_name current_user post_id
    else st7
  if delete_post then ⟨st8, Redirect.blog⟩
  else if edit_post then ⟨st8, Redirect.editPage post_id⟩
  else if have_error then ⟨st8, Redirect.login⟩
  else ⟨st8, Redirect.postPage post_id⟩

/-- Source `PostPage.post(post_id)`, lines 467-480: derive `uname` via
`identify()`, and `current_user`/`current_name` from the raw cookies when
the `user_id` cookie verifies (each is the raw cookie value's text before
the first `"|"`). -/
def postPage (hmac : String → String → String) (post_id : Nat)
    (ck : Cookies) (req : Req) (st : DataStore) : PostResult :=
  let uname := identify hmac ck
  let current_user := if (read_secure_cookie hmac ck.user_id).isSome
    then some (firstField (ck.user_id.getD "")) else none
  let current_name := if (read_secure_cookie hmac ck.user_id).isSome
    then some (firstField (ck.user.getD "")) else none
  postPageCore uname current_user current_name post_id req st

/-- The like counter of `PostPage.get` (lines 428-432): iterate over the
`Likez` query and count the records with `does_like` set whose `post_id`
matches the displayed post. -/
def postPageGetCount (st : DataStore) (post_id : Nat) : Nat :=
  (gqlLikezDesc st).foldl
    (fun count likey =>
      if likey.does_like && likey.post_id == post_id then count + 1
      else count) 0

/-- Source `EditPage.post(post_id)`: when the `post_update` field is non-empty,
overwrite the post's content and save; always redirect to the post page.
No cookie is read and no identity check occurs in this handler. -/
def editPagePost (post_id : Nat) (post_update : String) (st : DataStore) :
    PostResult :=
  let st' := if post_update != "" then postPutContent st post_id post_update
             else st
  ⟨st', Redirect.postPage post_id⟩

/-! ### `Signup.post` -/

/-- Source `Credential(db.Model)`: a registered user's login record. -/
structure Credential where
  username : String
  email : String
  hashed_password : String
deriving DecidableEq

/-- The four form fields `Signup.post` reads (absent = `""`). -/
structure SignupReq where
  username : String
  password : String
  verify : String
  email : String
deriving DecidableEq

/-- Result of `Signup.post`: the `Credential` table afterwards, the
`Set-Cookie` headers added, and whether the handler redirected to `/blog`
(`true`) or re-rendered the signup form with error messages (`false`). -/
structure SignupOutcome where
  creds : List Credential
  cookies : List (String × String)
  redirected : Bool
deriving DecidableEq

/-- Source `Signup.post` (lines 171-218): validate the four fields, scan the
whole `Credential` table for a duplicate username, and either re-render
with errors or create the credential (hashing `verify`, which at that
point equals `password`), set the `user` and `user_id` cookies and
redirect.  `newId` is the datastore-assigned id of the new record,
`freshSalt` the salt `make_salt()` draws. -/
def signupPost (hmac : String → String → String) (sha : String → String)
    (freshSalt : String) (newId : Nat) (req : SignupReq)
    (credentials : List Credential) : SignupOutcome :=
  let he1 := if !valid_username req.username then true else false
  let he2 := if !valid_password req.password then true
             else if req.password != req.verify then true else he1
  let he3 := if req.email != "" && !valid_email req.email then true
             else he2
  let have_error := credentials.foldl
    (fun he cr => if cr.username == req.username then true else he) he3
  if have_error then ⟨credentials, [], false⟩
  else
    let c : Credential :=
      ⟨req.username, req.email,
       make_pw_hash sha freshSalt req.username req.verify none⟩
    ⟨credentials ++ [c],
     [("user", make_secure_val hmac req.username),
      ("user_id", make_secure_val hmac (toString newId))],
     true⟩

/-! ### The InteractionDispatcher, stated from the specification

The spec fixes the dispatch order `like, unlike, edit_c, update_c,
cancel_u_c, delete_c, delete_p, edit_p, new comment` and the terminal
redirect priority `delete_p > edit_p > authentication-error > default`.
Each step is defined here on its own, and their composition in exactly
that order is compared with `postPageCore` (claim C6). -/

/-- Dispatcher step 1: like. -/
def likeStep (uname current_user current_name : Option String)
    (post_id : Nat) (req : Req) (st : DataStore) : DataStore :=
  if req.like1 && uname.isSome
  then likezInsert st current_user current_name post_id true else st

/-- Dispatcher step 2: unlike. -/
def unlikeStep (current_user : Option String) (req : Req)
    (st : DataStore) : DataStore :=
  if req.unlike then
    let likez := gqlLikezDesc st
    let delkey := likez.foldl
      (fun acc likey =>
        if likey.creator == current_user && likey.does_like
        then some likey.id else acc) none
    match delkey with
    | some k => likezDelete st k
    | none => st
  else st

/-- Dispatcher step 3: enter comment edit mode. -/
def editCStep (req : Req) (st : DataStore) : DataStore :=
  match req.edit_c with
  | some ckey =>
    match commentGet st ckey with
    | some e => commentPut st { e with mod := some true }
    | none => st
  | none => st

/-- Dispatcher step 4: commit a comment edit. -/
def updateCStep (req : Req) (st : DataStore) : DataStore :=
  match req.update_c with
  | some ukey =>
    match commentGet st ukey with
    | some u => commentPut st
        { u with content := req.updated_comment, mod := some false }
    | none => st
  | none => st

/-- Dispatcher step 5: cancel a comment edit. -/
def cancelUCStep (req : Req) (st : DataStore) : DataStore :=
  match req.cancel_u_c with
  | some cankey =>
    match commentGet st cankey with
    | some can => commentPut st { can with mod := some false }
    | none => st
  | none => st

/-- Dispatcher step 6: delete a comment. -/
def deleteCStep (req : Req) (st : DataStore) : DataStore :=
  match req.delete_c with
  | some dd_key => commentDelete st dd_key
  | none => st

/-- Dispatcher step 7: delete the post. -/
def deletePStep (req : Req) (st : DataStore) : DataStore :=
  match req.delete_p with
  | some dpk => postDelete st dpk
  | none => st

/-- Dispatcher step 8: edit-post is a redirect flag only, no mutation. -/
def editPStep (_req : Req) (st : DataStore) : DataStore :=
  st

/-- Dispatcher step 9: create a new comment when the `comment` field is
non-empty and the actor is authenticated. -/
def newCommentStep (uname current_user current_name : Option String)
    (post_id : Nat) (req : Req) (st : DataStore) : DataStore :=
  if req.comment != "" && uname.isSome
  then commentInsert st req.comment current_name current_user post_id
  else st

/-- The spec's dispatch order: steps 1-9 applied in sequence, each to the
state the previous one produced. -/
def dispatchSteps (uname current_user current_name : Option String)
    (post_id : Nat) (req : Req) (st : DataStore) : DataStore :=
  newCommentStep uname current_user current_name post_id req
    (editPStep req
      (deletePStep req
        (deleteCStep req
          (cancelUCStep req
            (updateCStep req
              (editCStep req
                (unlikeStep current_user req
                  (likeStep uname current_user current_name post_id req
                    st))))))))

/-- The spec's terminal redirect priority:
`delete_p > edit_p > authentication-error > default (redisplay post)`. -/
def redirectPriority (delete_post edit_post have_error : Bool)
    (post_id : Nat) : Redirect :=
  if delete_post then Redirect.blog
  else if edit_post then Redirect.editPage post_id
  else if have_error then Redirect.login
  else Redirect.postPage post_id

/-- The dispatcher as the spec words it: the ordered steps, paired with
the priority-selected redirect (the authentication error being a `like`
click without a verified session). -/
def dispatcherSpec (uname current_user current_name : Option String)
    (post_id : Nat) (req : Req) (st : DataStore) : PostResult :=
  ⟨dispatchSteps uname current_user current_name post_id req st,
   redirectPriority req.delete_p.isSome req.edit_p.isSome
     (req.like1 && uname.isNone) post_id⟩

/-! ### `PostPage.post` with the missing-comment error path

In the source, the `edit_c`, `update_c` and `cancel_u_c` blocks do
`e = db.get(key)` followed by attribute access; when the key resolves to
no entity, `db.get` returns `None` and the attribute access raises
`AttributeError`, so no later block runs and no redirect is issued.
`postPageCoreExc` models the handler with that error path kept: `none` is
the uncaught-exception outcome.  It is split into one definition per
remaining source block so the abort threads through the sequence. -/

/-- Source lines 529-560: the `delete_c` and `delete_p` deletes
(`db.delete` raises nothing for an absent key), the `edit_p` flag, the
new-comment insert and the terminal redirect — none of which can raise. -/
def postPageExcFromDelete (uname current_user current_name : Option String)
    (post_id : Nat) (req : Req) (st5 : DataStore) : Option PostResult :=
  let comment := req.comment
  let have_error := req.like1 && uname.isNone
  let st6 := match req.delete_c with
    | some dd_key => commentDelete st5 dd_key
    | none => st5
  let st7 := match req.delete_p with
    | some dpk => postDelete st6 dpk
    | none => st6
  let delete_post := req.delete_p.isSome
  let edit_post := req.edit_p.isSome
  let st8 := if comment != "" && uname.isSome
    then commentInsert st7 comment current_name current_user post_id
    else st7
  some (if delete_post then ⟨st8, Redirect.blog⟩
        else if edit_post then ⟨st8, Redirect.editPage post_id⟩
        else if have_error then ⟨st8, Redirect.login⟩
        else ⟨st8, Redirect.postPage post_id⟩)

/-- Source lines 521-528 (`cancel_u_c`) with the error path: a `db.get`
miss raises on `can.mod = False` and aborts the request (`none`). -/
def postPageExcFromCancel (uname current_user current_name : Option String)
    (post_id : Nat) (req : Req) (st4 : DataStore) : Option PostResult :=
  match req.cancel_u_c with
  | some cankey =>
    match commentGet st4 cankey with
    | some can => postPageExcFromDelete uname current_user current_name
        post_id req (commentPut st4 { can with mod := some false })
    | none => none
  | none => postPageExcFromDelete uname current_user current_name post_id
      req st4

/-- Source lines 510-520 (`update_c`) with the error path: a `db.get`
miss raises on `u.content = ucom` and aborts the request (`none`). -/
def postPageExcFromUpdate (uname current_user current_name : Option String)
    (post_id : Nat) (req : Req) (st3 : DataStore) : Option PostResult :=
  match req.update_c with
  | some ukey =>
    match commentGet st3 ukey with
    | some u => postPageExcFromCancel uname current_user current_name
        post_id req (commentPut st3
          { u with content := req.updated_comment, mod := some false })
    | none => none
  | none => postPageExcFromCancel uname current_user current_name post_id
      req st3

/-- Source lines 501-509 (`edit_c`) with the error path: a `db.get` miss
raises on `e.mod = True` and aborts the request (`none`). -/
def postPageExcFromEdit (uname current_user current_name : Option String)
    (post_id : Nat) (req : Req) (st2 : DataStore) : Option PostResult :=
  match req.edit_c with
  | some ckey =>
    match commentGet st2 ckey with
    | some e => postPageExcFromUpdate uname current_user current_name
        post_id req (commentPut st2 { e with mod := some true })
    | none => none
  | none => postPageExcFromUpdate uname current_user current_name post_id
      req st2

/-- `PostPage.post` after the identity block, lines 481-560, with the
missing-comment error path modelled faithfully (unlike `postPageCore`,
which continues as a no-op there and is used only under existence
hypotheses): the like and unlike blocks as in `postPageCore`, then the
abort-aware remainder. -/
def postPageCoreExc (uname current_user current_name : Option String)
    (post_id : Nat) (req : Req) (st : DataStore) : Option PostResult :=
  let st1 := if req.like1 && uname.isSome
    then likezInsert st current_user current_name post_id true else st
  let st2 := if req.unlike then
      let likez := gqlLikezDesc st1
      let delkey := likez.foldl
        (fun acc likey =>
          if likey.creator == current_user && likey.does_like
          then some likey.id else acc) none
      match delkey with
      | some k => likezDelete st1 k
      | none => st1
    else st1
  postPageExcFromEdit uname current_user current_name post_id req st2

/-- A request carrying only a `like1` click. -/
def likeOnlyReq : Req :=
  ⟨true, false, none, none, "", none, none, none, none, ""⟩

/-- One authenticated `like1`-only submission by user `cu` (name `cn`,
display name `u`) on post `pid`, viewed as a state transformer. -/
def likeClick (u cu cn : String) (pid : Nat) (s : DataStore) : DataStore :=
  (postPageCore (some u) (some cu) (some cn) pid likeOnlyReq s).st

/-- A request carrying only an `unlike` click. -/
def unlikeOnlyReq : Req :=
  ⟨false, true, none, none, "", none, none, none, none, ""⟩

/-- A request carrying only a `delete_c` field for comment key `k`. -/
def deleteCOnlyReq (k : Nat) : Req :=
  ⟨false, false, none, none, "", none, some k, none, none, ""⟩

/-- A request carrying only `update_c` for comment key `k` with the
replacement text in `updated_comment`. -/
def updateCOnlyReq (k : Nat) (txt : String) : Req :=
  ⟨false, false, none, some k, txt, none, none, none, none, ""⟩

/-- A request carrying only `cancel_u_c` for comment key `k`. -/
def cancelUCOnlyReq (k : Nat) : Req :=
  ⟨false, false, none, none, "", some k, none, none, none, ""⟩

/-- A request carrying only `edit_c` for comment key `k`. -/
def editCOnlyReq (k : Nat) : Req :=
  ⟨false, false, some k, none, "", none, none, none, none, ""⟩

/-- A request carrying only a `delete_p` field for post key `k`. -/
def deletePOnlyReq (k : Nat) : Req :=
  ⟨false, false, none, none, "", none, none, some k, none, ""⟩

/-- Alice's post, id 7, creator id `"1"`. -/
def c2Post : Post :=
  ⟨7, "Hello", "World", 0, 0, some "1", some "alice"⟩

/-- A store holding only `c2Post`. -/
def c2State : DataStore :=
  DataStore.mk [c2Post] [] [] 1

/-- A request with no cookies at all: an unauthenticated visitor. -/
def noCookies : Cookies :=
  ⟨none, none⟩

/-- A request carrying only a new-comment text. -/
def commentOnlyReq (txt : String) : Req :=
  ⟨false, false, none, none, "", none, none, none, none, txt⟩

/-- The accumulated `have_error` flag of `Signup.post`, with the
duplicate-username scan folded out (`foldl_if_or`). -/
def signupHasError (req : SignupReq) (credentials : List Credential) :
    Bool :=
  (if req.email != "" && !valid_email req.email then true
   else if !valid_password req.password then true
   else if req.password != req.verify then true
   else if !valid_username req.username then true else false)
  || credentials.any (fun cr => cr.username == req.username)

/-- A store holding a single active like, by user `"1"`, on post 5. -/
def c3State : DataStore :=
  DataStore.mk [] [] [⟨0, true, 0, 0, some "1", some "alice", 5⟩] 1

/-- The comment `Signup`-independent fixture for the C8 counterexample:
one comment, in edit mode, last saved at time 0, store clock at 1. -/
def c8Comment : Comment :=
  ⟨0, "hello", 0, 0, some "1", some "alice", 7, some true⟩

/-- Store holding just `c8Comment`. -/
def c8State : DataStore :=
  DataStore.mk [] [c8Comment] [] 1

/-! ### Helper lemmas about `firstField` -/

theorem takeWhile_append_of_all {p : Char → Bool} (l : List Char)
    (x : Char) (r : List Char) (hl : ∀ c ∈ l, p c = true)
    (hx : p x = false) : (l ++ x :: r).takeWhile p = l := by
  induction l with
  | nil => simp [List.takeWhile, hx]
  | cons a l ih =>
    have ha : p a = true := hl a (List.mem_cons_self a l)
    simp only [List.cons_append, List.takeWhile, ha]
    simp only [List.cons.injEq, true_and]
    exact ih (fun c hc => hl c (List.mem_cons_of_mem a hc))

theorem firstField_append (s t : String) (hs : '|' ∉ s.data) :
    firstField (s ++ "|" ++ t) = s := by
  have hdata : (s ++ "|" ++ t).data = s.data ++ '|' :: t.data := by
    simp [String.data_append]
  apply String.ext
  show ((s ++ "|" ++ t).data.takeWhile (fun c => c != '|')) = s.data
  rw [hdata]
  apply takeWhile_append_of_all
  · intro c hc
    simp only [bne_iff_ne, ne_eq, decide_eq_true_eq]
    exact fun h => hs (h ▸ hc)
  · simp

theorem mem_of_mem_takeWhile {p : Char → Bool} {l : List Char} {c : Char}
    (h : c ∈ l.takeWhile p) : p c = true := by
  induction l with
  | nil => simp [List.takeWhile] at h
  | cons a l ih =>
    simp only [List.takeWhile] at h
    cases hpa : p a with
    | false => rw [hpa] at h; simp at h
    | true =>
      rw [hpa] at h
      rcases List.mem_cons.mp h with rfl | h'
      · exact hpa
      · exact ih h'

theorem firstField_no_bar (h : String) : '|' ∉ (firstField h).data := by
  intro hmem
  have := mem_of_mem_takeWhile (p := fun c => c != '|') hmem
  simp at this

theorem make_secure_val_ne_empty (hmac : String → String → String)
    (s : String) : make_secure_val hmac s ≠ "" := by
  intro h
  have : (make_secure_val hmac s).data = [] := by rw [h]
  rw [show (make_secure_val hmac s).data
        = s.data ++ '|' :: (hash_str hmac s).data by
      simp [make_secure_val, String.data_append]] at this
  simp at this

/-- C1: a token verifies, yielding subject `s`, exactly when it equals
`s ++ "|" ++ hash_str(s)` with `s` the text before the first `"|"`; hence
`check_secure_val (make_secure_val s) = s` for every subject `s` (subjects,
being the text before the first `"|"`, contain no `"|"`), and the empty or
any malformed token yields no subject. The theorem holds for every keyed
digest function `hmac`. -/
theorem c1_session_token_verification (hmac : String → String → String) :
    (∀ s : String, '|' ∉ s.data →
        check_secure_val hmac (make_secure_val hmac s) = some s)
    ∧ (∀ h s : String, check_secure_val hmac h = some s ↔
        (h = make_secure_val hmac s ∧ '|' ∉ s.data))
    ∧ check_secure_val hmac "" = none := by
  have key : ∀ h s : String, check_secure_val hmac h = some s ↔
      (h = make_secure_val hmac s ∧ '|' ∉ s.data) := by
    intro h s
    constructor
    · intro hc
      unfold check_secure_val at hc
      by_cases he : h = ""
      · simp [he] at hc
      · simp only [he, if_false] at hc
        by_cases hm : h = make_secure_val hmac (firstField h)
        · rw [if_pos hm, Option.some.injEq] at hc
          subst hc
          exact ⟨hm, firstField_no_bar h⟩
        · simp [hm] at hc
    · rintro ⟨rfl, hs⟩
      have hff : firstField (make_secure_val hmac s) = s := by
        unfold make_secure_val hash_str
        exact firstField_append s (hmac SECRET s) hs
      unfold check_secure_val
      rw [if_neg (make_secure_val_ne_empty hmac s)]
      simp [hff]
  refine ⟨fun s hs => (key _ s).mpr ⟨rfl, hs⟩, key, ?_⟩
  unfold check_secure_val
  simp

/-- Witness for C1 at a concrete digest function and subject. -/
theorem c1_session_token_verification_witness :
    check_secure_val constHmac (make_secure_val constHmac "42") = some "42" :=
  (c1_session_token_verification constHmac).1 "42" (by decide)

/-- C4: for every username and password accepted by the validators,
verifying a password against its own fresh hash succeeds, for any salt
`make_pw_hash` chooses (`make_salt` outputs: 5 ASCII letters). -/
theorem c4_password_hash_roundtrip (sha : String → String)
    (freshSalt otherFresh : String) (hsalt : IsMakeSaltOutput freshSalt)
    (name pw : String) (hn : valid_username name = true)
    (hp : valid_password pw = true) :
    valid_pw sha otherFresh name pw
      (make_pw_hash sha freshSalt name pw none) = true := by
  obtain ⟨hlen, halpha⟩ := hsalt
  have hnb : '|' ∉ freshSalt.data := by
    intro hmem
    have := halpha '|' hmem
    simp [Char.isAlpha, Char.isUpper, Char.isLower] at this
  have hne : freshSalt ≠ "" := by
    intro h
    rw [h] at hlen
    exact absurd hlen (by decide)
  have hmk : make_pw_hash sha freshSalt name pw none
      = freshSalt ++ "|" ++ sha (name ++ pw ++ freshSalt) := rfl
  have hff : firstField (make_pw_hash sha freshSalt name pw none)
      = freshSalt := by
    rw [hmk]; exact firstField_append _ _ hnb
  unfold valid_pw
  rw [hff]
  have : make_pw_hash sha otherFresh name pw (some freshSalt)
      = make_pw_hash sha freshSalt name pw none := by
    unfold make_pw_hash
    simp [hne]
  rw [this]
  simp

/-- Witness for C4 at concrete validator-accepted inputs and a concrete
salt of the shape `make_salt` produces. -/
theorem c4_password_hash_roundtrip_witness :
    valid_pw constDigest "zzzzz" "alice" "wonder"
      (make_pw_hash constDigest "AbCdE" "alice" "wonder" none) = true :=
  c4_password_hash_roundtrip constDigest "AbCdE" "zzzzz"
    ⟨by decide, by decide⟩ "alice" "wonder" (by decide) (by decide)

/-- The total model of the handler equals the spec-ordered step
composition with the priority-selected redirect (helper for C6; it holds
unconditionally for `postPageCore` because that model, like
`dispatchSteps`, continues as a no-op on a missing comment). -/
theorem postPageCore_eq_dispatcherSpec
    (uname current_user current_name : Option String) (post_id : Nat)
    (req : Req) (st : DataStore) :
    postPageCore uname current_user current_name post_id req st
      = dispatcherSpec uname current_user current_name post_id req st := by
  unfold postPageCore dispatcherSpec dispatchSteps redirectPriority
    likeStep unlikeStep editCStep updateCStep cancelUCStep deleteCStep
    deletePStep editPStep newCommentStep
  obtain ⟨l1, ul, ec, uc, ucm, cuc, dc, dp, ep, cm⟩ := req
  cases dp <;> cases ep <;> cases l1 <;> cases uname <;> rfl

/-! ### C6: the abort-aware handler refines the dispatcher -/

theorem comments_likeStep (uname cu cn : Option String) (pid : Nat)
    (req : Req) (st : DataStore) :
    (likeStep uname cu cn pid req st).comments = st.comments := by
  unfold likeStep likezInsert
  split <;> rfl

theorem comments_unlikeStep (cu : Option String) (req : Req)
    (st : DataStore) :
    (unlikeStep cu req st).comments = st.comments := by
  unfold unlikeStep
  split
  · dsimp only
    split <;> rfl
  · rfl

theorem commentGet_ext {st st' : DataStore}
    (h : st.comments = st'.comments) (k : Nat) :
    commentGet st k = commentGet st' k := by
  unfold commentGet
  rw [h]

theorem find?_isSome_map_replace (l : List Comment) (j k : Nat)
    (r : Comment) (hr : r.id = j) :
    ((l.map (fun x => if x.id = j then r else x)).find?
        (fun c => c.id == k)).isSome
      = (l.find? (fun c => c.id == k)).isSome := by
  induction l with
  | nil => rfl
  | cons a l ih =>
    rw [List.map_cons, List.find?_cons, List.find?_cons]
    have hid : ((if a.id = j then r else a).id == k) = (a.id == k) := by
      split
      · next h' => rw [hr, h']
      · rfl
    rw [hid]
    cases h : (a.id == k)
    · simpa using ih
    · rfl

theorem isSome_commentGet_editCStep (req : Req) (st : DataStore)
    (k : Nat) :
    (commentGet (editCStep req st) k).isSome
      = (commentGet st k).isSome := by
  unfold editCStep
  cases req.edit_c with
  | none => rfl
  | some j =>
    dsimp only
    cases hg : commentGet st j with
    | none => rfl
    | some e =>
      show Option.isSome
          (commentGet (commentPut st { e with mod := some true }) k)
        = Option.isSome (commentGet st k)
      unfold commentGet commentPut
      exact find?_isSome_map_replace st.comments _ k _ rfl

theorem isSome_commentGet_updateCStep (req : Req) (st : DataStore)
    (k : Nat) :
    (commentGet (updateCStep req st) k).isSome
      = (commentGet st k).isSome := by
  unfold updateCStep
  cases req.update_c with
  | none => rfl
  | some j =>
    dsimp only
    cases hg : commentGet st j with
    | none => rfl
    | some u =>
      show Option.isSome (commentGet (commentPut st
          { u with content := req.updated_comment, mod := some false }) k)
        = Option.isSome (commentGet st k)
      unfold commentGet commentPut
      exact find?_isSome_map_replace st.comments _ k _ rfl

theorem postPageExcFromDelete_eq
    (uname cu cn : Option String) (pid : Nat) (req : Req)
    (s5 : DataStore) :
    postPageExcFromDelete uname cu cn pid req s5
      = some ⟨newCommentStep uname cu cn pid req
                (editPStep req (deletePStep req (deleteCStep req s5))),
              redirectPriority req.delete_p.isSome req.edit_p.isSome
                (req.like1 && uname.isNone) pid⟩ := by
  unfold postPageExcFromDelete newCommentStep editPStep deletePStep
    deleteCStep redirectPriority
  obtain ⟨l1, ul, ec, uc, ucm, cuc, dc, dp, ep, cm⟩ := req
  cases dp <;> cases ep <;> cases l1 <;> cases uname <;> rfl

theorem postPageExcFromCancel_eq
    (uname cu cn : Option String) (pid : Nat) (req : Req)
    (s4 : DataStore)
    (h : ∀ k, req.cancel_u_c = some k →
        (commentGet s4 k).isSome = true) :
    postPageExcFromCancel uname cu cn pid req s4
      = postPageExcFromDelete uname cu cn pid req
          (cancelUCStep req s4) := by
  unfold postPageExcFromCancel cancelUCStep
  cases hcc : req.cancel_u_c with
  | none => rfl
  | some k =>
    dsimp only
    cases hg : commentGet s4 k with
    | none =>
      have := h k hcc
      rw [hg] at this
      simp at this
    | some can => rfl

theorem postPageExcFromUpdate_eq
    (uname cu cn : Option String) (pid : Nat) (req : Req)
    (s3 : DataStore)
    (h : ∀ k, req.update_c = some k →
        (commentGet s3 k).isSome = true) :
    postPageExcFromUpdate uname cu cn pid req s3
      = postPageExcFromCancel uname cu cn pid req
          (updateCStep req s3) := by
  unfold postPageExcFromUpdate updateCStep
  cases huc : req.update_c with
  | none => rfl
  | some k =>
    dsimp only
    cases hg : commentGet s3 k with
    | none =>
      have := h k huc
      rw [hg] at this
      simp at this
    | some u => rfl

theorem postPageExcFromEdit_eq
    (uname cu cn : Option String) (pid : Nat) (req : Req)
    (s2 : DataStore)
    (h : ∀ k, req.edit_c = some k →
        (commentGet s2 k).isSome = true) :
    postPageExcFromEdit uname cu cn pid req s2
      = postPageExcFromUpdate uname cu cn pid req
          (editCStep req s2) := by
  unfold postPageExcFromEdit editCStep
  cases hec : req.edit_c with
  | none => rfl
  | some k =>
    dsimp only
    cases hg : commentGet s2 k with
    | none =>
      have := h k hec
      rw [hg] at this
      simp at this
    | some e => rfl

/-- Counterexample to C6 as stated: a request carrying a stale `edit_c`
(comment key 0 resolves to no comment) together with `delete_p` makes the
handler raise `AttributeError` in the `edit_c` block — the abort-aware
model returns `none` — so later actions do not execute (the post is never
deleted) and no terminal redirect at all is issued, while the claim
promises exactly one priority-chosen redirect regardless of how many
actions executed. -/
theorem c6_stale_edit_c_aborts_counterexample :
    postPageCoreExc (some "alice") (some "1") (some "alice") 7
        (Req.mk false false (some 0) none "" none none (some 7) none "")
        (DataStore.mk
          [⟨7, "Hello", "World", 0, 0, some "1", some "alice"⟩] [] [] 1)
      = none
    ∧ DataStore.comments (DataStore.mk
        [⟨7, "Hello", "World", 0, 0, some "1", some "alice"⟩] [] [] 1)
      = [] := by
  decide

/-- C6 amended: provided every comment key carried by `edit_c`,
`update_c` or `cancel_u_c` resolves to an existing comment, the actions
of one request execute in the fixed order like, unlike, edit_c, update_c,
cancel_u_c, delete_c, delete_p, edit_p, new-comment, each step acting on
the state the previous one left, and exactly one terminal redirect is
chosen by the priority delete_p > edit_p > authentication-error > default
redisplay; a key that does not resolve makes `db.get` return `None`, the
following attribute access raises `AttributeError`, later actions do not
run and no redirect is issued. -/
theorem c6_amended_dispatch_order_and_redirect_priority
    (uname current_user current_name : Option String) (post_id : Nat)
    (req : Req) (st : DataStore)
    (hec : ∀ k, req.edit_c = some k →
        (commentGet st k).isSome = true)
    (huc : ∀ k, req.update_c = some k →
        (commentGet st k).isSome = true)
    (hcc : ∀ k, req.cancel_u_c = some k →
        (commentGet st k).isSome = true) :
    postPageCoreExc uname current_user current_name post_id req st
      = some (dispatcherSpec uname current_user current_name post_id req
          st) := by
  have hc2 : (unlikeStep current_user req
      (likeStep uname current_user current_name post_id req st)).comments
      = st.comments := by
    rw [comments_unlikeStep, comments_likeStep]
  have hec2 : ∀ k, req.edit_c = some k →
      Option.isSome (commentGet (unlikeStep current_user req
        (likeStep uname current_user current_name post_id req st)) k)
      = true := by
    intro k hk
    rw [commentGet_ext hc2]
    exact hec k hk
  have huc3 : ∀ k, req.update_c = some k →
      Option.isSome (commentGet (editCStep req (unlikeStep current_user
        req (likeStep uname current_user current_name post_id req st)))
        k) = true := by
    intro k hk
    rw [isSome_commentGet_editCStep, commentGet_ext hc2]
    exact huc k hk
  have hcc4 : ∀ k, req.cancel_u_c = some k →
      Option.isSome (commentGet (updateCStep req (editCStep req
        (unlikeStep current_user req (likeStep uname current_user
          current_name post_id req st)))) k) = true := by
    intro k hk
    rw [isSome_commentGet_updateCStep, isSome_commentGet_editCStep,
      commentGet_ext hc2]
    exact hcc k hk
  calc postPageCoreExc uname current_user current_name post_id req st
      = postPageExcFromEdit uname current_user current_name post_id req
          (unlikeStep current_user req (likeStep uname current_user
            current_name post_id req st)) := rfl
    _ = postPageExcFromUpdate uname current_user current_name post_id req
          (editCStep req (unlikeStep current_user req (likeStep uname
            current_user current_name post_id req st))) :=
        postPageExcFromEdit_eq uname current_user current_name post_id
          req _ hec2
    _ = postPageExcFromCancel uname current_user current_name post_id req
          (updateCStep req (editCStep req (unlikeStep current_user req
            (likeStep uname current_user current_name post_id req
              st)))) :=
        postPageExcFromUpdate_eq uname current_user current_name post_id
          req _ huc3
    _ = postPageExcFromDelete uname current_user current_name post_id req
          (cancelUCStep req (updateCStep req (editCStep req
            (unlikeStep current_user req (likeStep uname current_user
              current_name post_id req st))))) :=
        postPageExcFromCancel_eq uname current_user current_name post_id
          req _ hcc4
    _ = some ⟨newCommentStep uname current_user current_name post_id req
            (editPStep req (deletePStep req (deleteCStep req
              (cancelUCStep req (updateCStep req (editCStep req
                (unlikeStep current_user req (likeStep uname current_user
                  current_name post_id req st)))))))),
          redirectPriority req.delete_p.isSome req.edit_p.isSome
            (req.like1 && uname.isNone) post_id⟩ :=
        postPageExcFromDelete_eq uname current_user current_name post_id
          req _
    _ = some (dispatcherSpec uname current_user current_name post_id req
          st) := rfl

/-- Witness for the amended C6: a request carrying a resolving `edit_c`
together with `delete_p` runs both actions and redirects to the blog. -/
theorem c6_amended_dispatch_order_and_redirect_priority_witness :
    postPageCoreExc (some "alice") (some "1") (some "alice") 7
        (Req.mk false false (some 0) none "" none none (some 7) none "")
        (DataStore.mk
          [⟨7, "Hello", "World", 0, 0, some "1", some "alice"⟩]
          [⟨0, "hi", 0, 0, some "1", some "alice", 7, none⟩] [] 1)
      = some (dispatcherSpec (some "alice") (some "1") (some "alice") 7
          (Req.mk false false (some 0) none "" none none (some 7) none "")
          (DataStore.mk
            [⟨7, "Hello", "World", 0, 0, some "1", some "alice"⟩]
            [⟨0, "hi", 0, 0, some "1", some "alice", 7, none⟩] [] 1)) :=
  c6_amended_dispatch_order_and_redirect_priority (some "alice")
    (some "1") (some "alice") 7
    (Req.mk false false (some 0) none "" none none (some 7) none "")
    (DataStore.mk
      [⟨7, "Hello", "World", 0, 0, some "1", some "alice"⟩]
      [⟨0, "hi", 0, 0, some "1", some "alice", 7, none⟩] [] 1)
    (by intro k hk; injection hk with h; subst h; decide)
    (by intro k hk; exact Option.noConfusion hk)
    (by intro k hk; exact Option.noConfusion hk)

/-! ### List helper lemmas -/

theorem foldl_if_count {α : Type} (p : α → Bool) (l : List α) (n : Nat) :
    l.foldl (fun c x => if p x then c + 1 else c) n = n + l.countP p := by
  induction l generalizing n with
  | nil => simp
  | cons a l ih =>
    rw [List.foldl_cons, ih, List.countP_cons]
    cases hpa : p a <;> simp [hpa] <;> omega

theorem foldl_if_or {α : Type} (p : α → Bool) (l : List α) (b : Bool) :
    l.foldl (fun he x => if p x then true else he) b = (b || l.any p) := by
  induction l generalizing b with
  | nil => simp
  | cons a l ih =>
    rw [List.foldl_cons, ih, List.any_cons]
    cases hpa : p a <;> cases b <;> simp [hpa]

theorem foldl_last_match {α β : Type} (p : α → Bool) (f : α → β)
    (l : List α) (acc : Option β) :
    l.foldl (fun acc x => if p x then some (f x) else acc) acc
      = match l.reverse.find? p with
        | some y => some (f y)
        | none => acc := by
  induction l generalizing acc with
  | nil => simp
  | cons a l ih =>
    rw [List.foldl_cons, ih, List.reverse_cons, List.find?_append]
    cases h : l.reverse.find? p with
    | some y => simp [Option.or]
    | none =>
      cases hpa : p a <;> simp [Option.or, List.find?, hpa]

theorem find?_min_of_pairwise {α : Type} {R : α → α → Prop}
    {p : α → Bool} {l : List α} (hp : l.Pairwise R) {y : α}
    (h : l.find? p = some y) :
    ∀ x ∈ l, p x = true → x = y ∨ R y x := by
  induction l with
  | nil => simp at h
  | cons a l ih =>
    rw [List.find?_cons] at h
    rcases List.pairwise_cons.mp hp with ⟨hhead, htail⟩
    cases hpa : p a
    · rw [hpa] at h
      intro x hx hpx
      rcases List.mem_cons.mp hx with rfl | hx'
      · rw [hpa] at hpx; exact absurd hpx (by simp)
      · exact ih htail h x hx' hpx
    · rw [hpa] at h
      injection h with h
      subst h
      intro x hx hpx
      rcases List.mem_cons.mp hx with rfl | hx'
      · exact Or.inl rfl
      · exact Or.inr (hhead x hx')

theorem find?_map_replace (l : List Comment) (k : Nat) (r : Comment)
    (hr : r.id = k) (c₀ : Comment)
    (h : l.find? (fun c => c.id == k) = some c₀) :
    (l.map (fun x => if x.id = k then r else x)).find? (fun c => c.id == k)
      = some r := by
  induction l with
  | nil => simp at h
  | cons a l ih =>
    rw [List.find?_cons] at h
    rw [List.map_cons, List.find?_cons]
    by_cases ha : a.id = k
    · rw [if_pos ha]
      have : (r.id == k) = true := by simp [hr]
      rw [this]
    · rw [if_neg ha]
      have hfalse : (a.id == k) = false := by simp [ha]
      rw [hfalse] at h ⊢
      exact ih h

/-! ### C5: repeated likes accumulate -/

theorem likeClick_eq (u cu cn : String) (pid : Nat) (s : DataStore) :
    likeClick u cu cn pid s = likezInsert s (some cu) (some cn) pid true :=
  rfl

theorem postPageGetCount_eq_countP (st : DataStore) (pid : Nat) :
    postPageGetCount st pid
      = st.likez.countP (fun l => l.does_like && l.post_id == pid) := by
  unfold postPageGetCount gqlLikezDesc
  rw [foldl_if_count, List.countP_reverse]
  simp

/-- C5: each like submission unconditionally inserts a fresh `Likez`
record with `does_like = true` for (actor, post), so `n` consecutive likes
by the same authenticated user on the same post (no intervening unlike)
add `n` active-like records of that user for that post, and — starting
from a post with no displayed likes — leave a displayed count of `n`. -/
theorem c5_duplicate_likes_accumulate (u cu cn : String) (pid : Nat)
    (st : DataStore) (n : Nat) (h0 : postPageGetCount st pid = 0) :
    postPageGetCount ((likeClick u cu cn pid)^[n] st) pid = n
    ∧ ((likeClick u cu cn pid)^[n] st).likez.countP
        (fun l => l.creator == some cu && l.post_id == pid && l.does_like)
      = st.likez.countP
          (fun l => l.creator == some cu && l.post_id == pid && l.does_like)
        + n := by
  induction n with
  | zero => simpa using h0
  | succ n ih =>
    rw [Function.iterate_succ_apply', likeClick_eq]
    set st' := (likeClick u cu cn pid)^[n] st with hst'
    constructor
    · rw [postPageGetCount_eq_countP]
      unfold likezInsert
      rw [List.countP_append]
      simp only [List.countP_cons, List.countP_nil]
      rw [← postPageGetCount_eq_countP]
      simp [ih.1]
    · unfold likezInsert
      rw [List.countP_append]
      simp only [List.countP_cons, List.countP_nil]
      simp [ih.2, Nat.add_assoc]

/-- Witness for C5: two like clicks on an empty store display a count
of 2. -/
theorem c5_duplicate_likes_accumulate_witness :
    postPageGetCount ((likeClick "alice" "1" "alice" 7)^[2]
      (DataStore.mk [] [] [] 0)) 7 = 2 :=
  (c5_duplicate_likes_accumulate "alice" "1" "alice" 7
    (DataStore.mk [] [] [] 0) 2 (by decide)).1

/-! ### C9: deletes of absentees are no-ops -/

/-- The post-delkey shape of the unlike block: the scan keeps the last
match of the descending iteration, which is the first match of the
ascending store list. -/
theorem postPageCore_unlike_st (uname cu cn : Option String) (pid : Nat)
    (st : DataStore) :
    (postPageCore uname cu cn pid unlikeOnlyReq st).st
      = match st.likez.find?
          (fun l => l.creator == cu && l.does_like) with
        | some y => likezDelete st y.id
        | none => st := by
  have hrfl : (postPageCore uname cu cn pid unlikeOnlyReq st).st
      = match (gqlLikezDesc st).foldl
          (fun acc likey =>
            if likey.creator == cu && likey.does_like
            then some likey.id else acc) none with
        | some k => likezDelete st k
        | none => st := rfl
  rw [hrfl]
  unfold gqlLikezDesc
  rw [foldl_last_match, List.reverse_reverse]
  cases st.likez.find? (fun l => l.creator == cu && l.does_like) <;> rfl

/-- C9: deleting what is already gone is an idempotent success.  A
`delete_c` whose comment key resolves to nothing leaves the datastore
unchanged and still ends in the normal redisplay redirect, and an
`unlike` by an actor holding no active like deletes nothing and also
redisplays the post. -/
theorem c9_missing_delete_noop (uname cu cn : Option String)
    (pid k : Nat) (st : DataStore)
    (hc : ∀ c ∈ st.comments, c.id ≠ k)
    (hl : ∀ l ∈ st.likez, ¬((l.creator == cu && l.does_like) = true)) :
    postPageCore uname cu cn pid (deleteCOnlyReq k) st
      = ⟨st, Redirect.postPage pid⟩
    ∧ postPageCore uname cu cn pid unlikeOnlyReq st
      = ⟨st, Redirect.postPage pid⟩ := by
  constructor
  · have hfilter : st.comments.filter (fun c => c.id != k) = st.comments :=
      List.filter_eq_self.mpr (fun c hm => by simpa using hc c hm)
    show (⟨commentDelete st k, Redirect.postPage pid⟩ : PostResult)
      = ⟨st, Redirect.postPage pid⟩
    unfold commentDelete
    rw [hfilter]
  · have hfind : st.likez.find?
        (fun l => l.creator == cu && l.does_like) = none :=
      List.find?_eq_none.mpr hl
    have hst := postPageCore_unlike_st uname cu cn pid st
    rw [hfind] at hst
    have hred : (postPageCore uname cu cn pid unlikeOnlyReq st).redirect
        = Redirect.postPage pid := rfl
    calc postPageCore uname cu cn pid unlikeOnlyReq st
        = ⟨(postPageCore uname cu cn pid unlikeOnlyReq st).st,
           (postPageCore uname cu cn pid unlikeOnlyReq st).redirect⟩ := rfl
      _ = ⟨st, Redirect.postPage pid⟩ := by rw [hst, hred]

/-- Witness for C9: a store whose only comment has key 0 and whose only
like belongs to another user; `delete_c 1` and `unlike` change nothing. -/
theorem c9_missing_delete_noop_witness :
    postPageCore (some "alice") (some "1") (some "alice") 7
        (deleteCOnlyReq 1)
        (DataStore.mk []
          [⟨0, "hi", 0, 0, some "9", some "bob", 7, none⟩]
          [⟨0, true, 0, 0, some "9", some "bob", 7⟩] 1)
      = ⟨DataStore.mk []
          [⟨0, "hi", 0, 0, some "9", some "bob", 7, none⟩]
          [⟨0, true, 0, 0, some "9", some "bob", 7⟩] 1,
         Redirect.postPage 7⟩ :=
  (c9_missing_delete_noop (some "alice") (some "1") (some "alice") 7 1
    (DataStore.mk []
      [⟨0, "hi", 0, 0, some "9", some "bob", 7, none⟩]
      [⟨0, true, 0, 0, some "9", some "bob", 7⟩] 1)
    (by decide) (by decide)).1

/-! ### C3: what `unlike` actually deletes -/

/-- Counterexample to C3 as stated: user `"1"`'s only like is on post 5,
yet the unlike submitted on post 7 deletes it — a Like record of another
post is deleted by an unlike on this post, because the scan never checks
`post_id`. -/
theorem c3_unlike_ignores_post_id_counterexample :
    (postPageCore (some "alice") (some "1") (some "alice") 7
        unlikeOnlyReq c3State).st.likez = []
    ∧ ∀ l ∈ c3State.likez, l.post_id ≠ 7 := by
  decide

/-- C3 amended: the unlike action scans ALL Like records (no `post_id`
filter) in created-descending order and deletes the last match belonging
to the actor with `does_like`, i.e. the actor's oldest active like — which
may reference a different post.  The hypothesis is the store invariant
that records sit in ascending creation order. -/
theorem c3_amended_unlike_deletes_oldest_active_like
    (uname cu cn : Option String) (pid : Nat) (st : DataStore)
    (hsort : st.likez.Pairwise (fun a b => a.created < b.created))
    (y : Likez)
    (hfind : st.likez.find?
        (fun l => l.creator == cu && l.does_like) = some y) :
    (postPageCore uname cu cn pid unlikeOnlyReq st).st
      = { st with likez := st.likez.filter (fun l => l.id != y.id) }
    ∧ (y.creator == cu && y.does_like) = true
    ∧ ∀ x ∈ st.likez, (x.creator == cu && x.does_like) = true →
        y.created ≤ x.created := by
  refine ⟨?_, ?_, ?_⟩
  · rw [postPageCore_unlike_st, hfind]
    rfl
  · have hpy := List.find?_some hfind
    exact hpy
  · intro x hx hpx
    rcases find?_min_of_pairwise hsort hfind x hx hpx with rfl | hlt
    · exact Nat.le_refl _
    · exact Nat.le_of_lt hlt

/-- Witness for the amended C3: with likes on posts 5 (older) and 7
(newer), both by user `"1"`, the unlike on post 7 removes the older like —
the one on post 5. -/
theorem c3_amended_unlike_deletes_oldest_active_like_witness :
    (postPageCore (some "alice") (some "1") (some "alice") 7 unlikeOnlyReq
        (DataStore.mk [] []
          [⟨0, true, 0, 0, some "1", some "alice", 5⟩,
           ⟨1, true, 1, 1, some "1", some "alice", 7⟩] 2)).st
      = { DataStore.mk [] []
            [⟨0, true, 0, 0, some "1", some "alice", 5⟩,
             ⟨1, true, 1, 1, some "1", some "alice", 7⟩] 2 with
          likez := (DataStore.mk [] []
            [⟨0, true, 0, 0, some "1", some "alice", 5⟩,
             ⟨1, true, 1, 1, some "1", some "alice", 7⟩] 2).likez.filter
              (fun l => l.id != (⟨0, true, 0, 0, some "1", some "alice",
                 5⟩ : Likez).id) } :=
  (c3_amended_unlike_deletes_oldest_active_like (some "alice") (some "1")
    (some "alice") 7
    (DataStore.mk [] []
      [⟨0, true, 0, 0, some "1", some "alice", 5⟩,
       ⟨1, true, 1, 1, some "1", some "alice", 7⟩] 2)
    (by simp [List.pairwise_cons])
    ⟨0, true, 0, 0, some "1", some "alice", 5⟩ (by decide)).1

/-! ### C8: comment update and cancel -/

/-- Saving a modified comment stores it under its key with
`last_modified` refreshed by `auto_now`. -/
theorem commentGet_commentPut (st : DataStore) (k : Nat) (c c' : Comment)
    (hget : commentGet st k = some c) (hid : c'.id = k) :
    commentGet (commentPut st c') k
      = some { c' with last_modified := st.clock } := by
  unfold commentGet at hget
  unfold commentGet commentPut
  rw [show c'.id = k from hid]
  exact find?_map_replace st.comments k _ rfl c hget

/-- Counterexample to C8 as stated: after `cancel_u_c` the stored comment
is NOT the original with only `edit_mode` cleared — `last_modified` has
moved from 0 to the save time 1, because `last_modified` is an
`auto_now = True` property refreshed by every `put()`. -/
theorem c8_cancel_changes_last_modified_counterexample :
    (postPageCore (some "alice") (some "1") (some "alice") 7
        (cancelUCOnlyReq 0) c8State).st.comments
      ≠ [{ c8Comment with mod := some false }]
    ∧ (postPageCore (some "alice") (some "1") (some "alice") 7
        (cancelUCOnlyReq 0) c8State).st.comments
      = [{ c8Comment with mod := some false, last_modified := 1 }] := by
  decide

/-- C8 amended: after `update_c` with new text, the comment's content is
the new text and its edit-mode flag is false; after `cancel_u_c`, the
edit-mode flag is false and the content, creator, name, post id and
creation time are unchanged — but in both cases `last_modified` is
refreshed to the save time by the `auto_now` property. -/
theorem c8_amended_update_and_cancel (uname cu cn : Option String)
    (pid k : Nat) (st : DataStore) (c : Comment) (txt : String)
    (hget : commentGet st k = some c) :
    commentGet ((postPageCore uname cu cn pid (updateCOnlyReq k txt)
        st).st) k
      = some { c with
                content := txt,
                mod := some false,
                last_modified := st.clock }
    ∧ commentGet ((postPageCore uname cu cn pid (cancelUCOnlyReq k)
        st).st) k
      = some { c with mod := some false, last_modified := st.clock } := by
  have hcid : c.id = k := by
    have := List.find?_some hget
    simpa using this
  constructor
  · have hrfl : (postPageCore uname cu cn pid (updateCOnlyReq k txt)
        st).st
        = match commentGet st k with
          | some u => commentPut st
              { u with content := txt, mod := some false }
          | none => st := rfl
    rw [hrfl, hget]
    exact commentGet_commentPut st k c _ hget hcid
  · have hrfl : (postPageCore uname cu cn pid (cancelUCOnlyReq k) st).st
        = match commentGet st k with
          | some can => commentPut st { can with mod := some false }
          | none => st := rfl
    rw [hrfl, hget]
    exact commentGet_commentPut st k c _ hget hcid

/-- Witness for the amended C8 on the concrete fixture. -/
theorem c8_amended_update_and_cancel_witness :
    commentGet ((postPageCore (some "alice") (some "1") (some "alice") 7
        (updateCOnlyReq 0 "new text") c8State).st) 0
      = some { c8Comment with
                content := "new text",
                mod := some false,
                last_modified := 1 }
    ∧ commentGet ((postPageCore (some "alice") (some "1") (some "alice") 7
        (cancelUCOnlyReq 0) c8State).st) 0
      = some { c8Comment with mod := some false, last_modified := 1 } :=
  c8_amended_update_and_cancel (some "alice") (some "1") (some "alice")
    7 0 c8State c8Comment "new text" (by decide)

/-! ### C2: ownership is not checked on mutation -/

/-- C2 fails on the code: a `delete_p` submitted by user id `"2"` deletes
the post created by `"1"` — nothing compares the actor's id with
`Post.creator` in `PostPage.post` — and `EditPage.post` overwrites the
post's content without reading any identity at all.  This contradicts the
handler's own docstring ("Users can edit or delete a comment, or the post
if they created it. This is established by checking if their user_id ...
matches the post/comment creator id."). -/
theorem c2_mutation_without_ownership_check :
    ((postPageCore (some "bob") (some "2") (some "bob") 7
        (deletePOnlyReq 7) c2State).st.posts = []
      ∧ c2Post.creator = some "1"
      ∧ (some "2" : Option String) ≠ some "1")
    ∧ (editPagePost 7 "hacked" c2State).st.posts
      = [{ c2Post with content := "hacked", last_modified := 1 }] := by
  decide

/-! ### C10: which actions are authentication-gated -/

/-- C10: with no valid session cookie, `edit_c`, `update_c`,
`cancel_u_c`, `delete_c` and `delete_p` still perform their mutations —
none of those blocks consults the session — while the like action and
new-comment creation are gated on the verified `user` cookie and leave
the store untouched (the like even bouncing to the login page). -/
theorem c10_mutations_unauthenticated (hmac : String → String → String)
    (pid : Nat) (st : DataStore) :
    (∀ k c, commentGet st k = some c →
      commentGet ((postPage hmac pid noCookies (editCOnlyReq k) st).st) k
        = some { c with mod := some true, last_modified := st.clock })
    ∧ (∀ k c txt, commentGet st k = some c →
      commentGet ((postPage hmac pid noCookies (updateCOnlyReq k txt)
          st).st) k
        = some { c with
                  content := txt,
                  mod := some false,
                  last_modified := st.clock })
    ∧ (∀ k c, commentGet st k = some c →
      commentGet ((postPage hmac pid noCookies (cancelUCOnlyReq k)
          st).st) k
        = some { c with mod := some false, last_modified := st.clock })
    ∧ (∀ k, (postPage hmac pid noCookies (deleteCOnlyReq k) st).st.comments
        = st.comments.filter (fun c => c.id != k))
    ∧ (∀ q, (postPage hmac pid noCookies (deletePOnlyReq q) st).st.posts
        = st.posts.filter (fun p => p.id != q))
    ∧ postPage hmac pid noCookies likeOnlyReq st
        = ⟨st, Redirect.login⟩
    ∧ (∀ txt, postPage hmac pid noCookies (commentOnlyReq txt) st
        = ⟨st, Redirect.postPage pid⟩) := by
  refine ⟨?_, ?_, ?_, fun k => rfl, fun q => rfl, rfl, ?_⟩
  · intro k c hget
    have hcid : c.id = k := by
      have := List.find?_some hget
      simpa [commentGet] using this
    have hrfl : (postPage hmac pid noCookies (editCOnlyReq k) st).st
        = match commentGet st k with
          | some e => commentPut st { e with mod := some true }
          | none => st := rfl
    rw [hrfl, hget]
    exact commentGet_commentPut st k c _ hget hcid
  · intro k c txt hget
    have hcid : c.id = k := by
      have := List.find?_some hget
      simpa [commentGet] using this
    have hrfl : (postPage hmac pid noCookies (updateCOnlyReq k txt)
        st).st
        = match commentGet st k with
          | some u => commentPut st
              { u with content := txt, mod := some false }
          | none => st := rfl
    rw [hrfl, hget]
    exact commentGet_commentPut st k c _ hget hcid
  · intro k c hget
    have hcid : c.id = k := by
      have := List.find?_some hget
      simpa [commentGet] using this
    have hrfl : (postPage hmac pid noCookies (cancelUCOnlyReq k) st).st
        = match commentGet st k with
          | some can => commentPut st { can with mod := some false }
          | none => st := rfl
    rw [hrfl, hget]
    exact commentGet_commentPut st k c _ hget hcid
  · intro txt
    have hshape : postPage hmac pid noCookies (commentOnlyReq txt) st
        = ⟨if txt != "" && false
             then commentInsert st txt none none pid else st,
           Redirect.postPage pid⟩ := rfl
    rw [hshape, Bool.and_false]
    rfl

/-- Witness for C10: a concrete store where the unauthenticated
`delete_p` removes the only post. -/
theorem c10_mutations_unauthenticated_witness :
    (postPage constHmac 7 noCookies (deletePOnlyReq 7) c2State).st.posts
      = c2State.posts.filter (fun p => p.id != (7 : Nat)) :=
  (c10_mutations_unauthenticated constHmac 7 c2State).2.2.2.2.1 7

/-! ### C7: signup validation -/

theorem signupPost_eq_ite (hmac : String → String → String)
    (sha : String → String) (freshSalt : String) (newId : Nat)
    (req : SignupReq) (credentials : List Credential) :
    signupPost hmac sha freshSalt newId req credentials
      = if signupHasError req credentials
        then ⟨credentials, [], false⟩
        else ⟨credentials
               ++ [⟨req.username, req.email,
                    make_pw_hash sha freshSalt req.username req.verify
                      none⟩],
              [("user", make_secure_val hmac req.username),
               ("user_id", make_secure_val hmac (toString newId))],
              true⟩ := by
  simp only [signupPost, signupHasError]
  rw [foldl_if_or]

theorem signupHasError_false_iff (req : SignupReq)
    (credentials : List Credential) :
    signupHasError req credentials = false ↔
      (valid_username req.username = true
       ∧ valid_password req.password = true
       ∧ req.password = req.verify
       ∧ (req.email = "" ∨ valid_email req.email = true)
       ∧ ∀ cr ∈ credentials, cr.username ≠ req.username) := by
  unfold signupHasError
  constructor
  · intro h
    obtain ⟨h3, hany⟩ := Bool.or_eq_false_iff.mp h
    split_ifs at h3 with hem hvp hpv hvu
    refine ⟨by simpa using hvu, by simpa using hvp, by simpa using hpv,
      ?_, ?_⟩
    · by_cases he : req.email = ""
      · exact Or.inl he
      · have himp : ¬req.email = "" → valid_email req.email = true := by
          simpa using hem
        exact Or.inr (himp he)
    · intro cr hcr
      have := List.any_eq_false.mp hany cr hcr
      simpa using this
  · rintro ⟨hvu, hvp, hpv, hem, hall⟩
    have hc1 : (req.email != "" && !valid_email req.email) = false := by
      rcases hem with he | hve
      · simp [he]
      · simp [hve]
    have hany : credentials.any
        (fun cr => cr.username == req.username) = false :=
      List.any_eq_false.mpr (fun cr hcr => by simpa using hall cr hcr)
    have hpv' : (req.password != req.verify) = false := by simp [hpv]
    rw [hany, hc1]
    simp [hvu, hvp, hpv']

/-- C7: `Signup.post` creates the credential and sets the `user` and
`user_id` session cookies exactly when the username passes `USER_RE`, the
password passes `PASSWORD_RE` and equals the verify field, the email is
empty or passes `EMAIL_RE`, and the full scan of existing credentials
finds no equal username; on any validation failure it re-renders the form
with no credential created and no cookie set. -/
theorem c7_signup_creates_iff_valid (hmac : String → String → String)
    (sha : String → String) (freshSalt : String) (newId : Nat)
    (req : SignupReq) (credentials : List Credential) :
    ((signupPost hmac sha freshSalt newId req credentials).redirected
        = true ↔
      (valid_username req.username = true
       ∧ valid_password req.password = true
       ∧ req.password = req.verify
       ∧ (req.email = "" ∨ valid_email req.email = true)
       ∧ ∀ cr ∈ credentials, cr.username ≠ req.username))
    ∧ ((signupPost hmac sha freshSalt newId req credentials).redirected
        = true →
      (signupPost hmac sha freshSalt newId req credentials).creds
        = credentials
          ++ [⟨req.username, req.email,
               make_pw_hash sha freshSalt req.username req.verify none⟩]
      ∧ (signupPost hmac sha freshSalt newId req credentials).cookies
        = [("user", make_secure_val hmac req.username),
           ("user_id", make_secure_val hmac (toString newId))])
    ∧ ((signupPost hmac sha freshSalt newId req credentials).redirected
        = false →
      (signupPost hmac sha freshSalt newId req credentials).creds
        = credentials
      ∧ (signupPost hmac sha freshSalt newId req credentials).cookies
        = []) := by
  rw [signupPost_eq_ite]
  cases hE : signupHasError req credentials
  · refine ⟨?_, fun _ => ⟨rfl, rfl⟩, ?_⟩
    · constructor
      · intro _
        exact (signupHasError_false_iff req credentials).mp hE
      · intro _
        rfl
    · intro h
      simp at h
  · refine ⟨?_, ?_, fun _ => ⟨rfl, rfl⟩⟩
    · constructor
      · intro h
        simp at h
      · intro hC
        have := (signupHasError_false_iff req credentials).mpr hC
        rw [hE] at this
        simp at this
    · intro h
      simp at h

/-- Witness for C7: a concrete valid signup on an empty credential table
is accepted. -/
theorem c7_signup_creates_iff_valid_witness :
    (signupPost constHmac constDigest "AbCdE" 1
        ⟨"alice", "wonder", "wonder", ""⟩ []).redirected = true :=
  (c7_signup_creates_iff_valid constHmac constDigest "AbCdE" 1
      ⟨"alice", "wonder", "wonder", ""⟩ []).1.mpr
    ⟨by decide, by decide, rfl, Or.inl rfl, by simp⟩

end MattsBlog
